import Mathlib

/-!
Verification of the backtesting core (indicator engine, rule-expression
evaluator, portfolio/risk simulator, metrics engine) against its
specification.  Python floats are modelled as rationals (ℚ); the float
not-a-number sentinel is modelled as `none` in `Option ℚ`; Python
exceptions are modelled with `Except PyErr`.  Definitions are direct
translations of the corresponding Python functions and keep their names.
-/

namespace Spec2Proof

/-- Python exception kinds raised by the embedded code. -/
inductive PyErr where
  | zeroDivision
  | typeError
  | nameError (id : String)
  | valueError (msg : String)
  | syntaxError
  deriving DecidableEq, Repr

/-- Python float division: raises ZeroDivisionError on a zero divisor. -/
def pyDiv (a b : ℚ) : Except PyErr ℚ :=
  if b = 0 then .error .zeroDivision else .ok (a / b)

/-! ### app/core/risk.py -/

/-- `RiskParameters` dataclass from app/core/risk.py. -/
structure RiskParameters where
  max_positions : Int
  max_gross_exposure : ℚ
  max_position_pct : ℚ
  deriving DecidableEq, Repr

/-- `position_size_vol_target` from app/core/risk.py, translated verbatim
over ℚ. -/
def position_size_vol_target
    (equity price atr risk_per_trade atr_multiple : ℚ) : ℚ :=
  if price ≤ 0 ∨ atr ≤ 0 then 0
  else
    let dollar_risk := equity * risk_per_trade
    let stop_distance := atr * atr_multiple
    if stop_distance ≤ 0 then 0
    else max (dollar_risk / stop_distance) 0

/-- Body of `apply_position_limits` after the open-position-count check
(the notional cap followed by the gross-exposure cap).  The two divisions
by `price` mirror Python `/` and can raise ZeroDivisionError (propagated by
the matches); the division by `equity` is guarded by the `equity ≤ 0` early
return, so it is written with total division. -/
def applyCaps (desired_qty price equity : ℚ) (params : RiskParameters)
    (gross_exposure : ℚ) : Except PyErr ℚ :=
  if equity ≤ 0 then .ok 0
  else
    match (if desired_qty * price > equity * params.max_position_pct then
        pyDiv (equity * params.max_position_pct) price
      else .ok desired_qty) with
    | .error err => .error err
    | .ok q1 =>
      match (if gross_exposure + |q1 * price| / equity > params.max_gross_exposure then
          pyDiv (max (params.max_gross_exposure - gross_exposure) 0 * equity) price
        else .ok q1) with
      | .error err => .error err
      | .ok q2 => .ok (max q2 0)

/-- `apply_position_limits` from app/core/risk.py.  The Python guard
`if params.max_positions and current_positions >= params.max_positions`
tests int truthiness of `max_positions`, i.e. `max_positions ≠ 0`. -/
def apply_position_limits (desired_qty price equity : ℚ)
    (params : RiskParameters) (current_positions : Int)
    (gross_exposure : ℚ) : Except PyErr ℚ :=
  if params.max_positions ≠ 0 ∧ current_positions ≥ params.max_positions then
    .ok 0
  else
    applyCaps desired_qty price equity params gross_exposure

/-! ### app/core/portfolio.py -/

/-- `Order` dataclass from app/core/portfolio.py.  `side` is the Python
string "buy" or "sell". -/
structure Order where
  symbol : String
  quantity : ℚ
  price : ℚ
  side : String
  reason : String := ""
  deriving DecidableEq, Repr

/-- `Position` dataclass from app/core/portfolio.py. -/
structure Position where
  symbol : String
  quantity : ℚ
  avg_price : ℚ
  stop_price : Option ℚ := none
  trailing_multiple : Option ℚ := none
  deriving DecidableEq, Repr

/-- `Position.update_stop` from app/core/portfolio.py: set the stop when it
is unset or when the new stop is strictly higher; otherwise leave it. -/
def Position.update_stop (p : Position) (new_stop : ℚ) : Position :=
  match p.stop_price with
  | none => { p with stop_price := some new_stop }
  | some s => if new_stop > s then { p with stop_price := some new_stop } else p

/-- The direct stop assignment `position.stop_price = stop_price` performed
by the engine right after opening a position (app/backtest/engine.py, end of
the entry branch). -/
def setStopDirect (p : Position) (stop : ℚ) : Position :=
  { p with stop_price := some stop }

/-- `Portfolio` dataclass from app/core/portfolio.py.  The Python dict
`positions: Dict[str, Position]` is modelled as a function
`String → Option Position`; a dict keys positions uniquely, so "at most one
Position per symbol" holds by representation.  Timestamps in the equity
history are opaque integers. -/
structure Portfolio where
  cash : ℚ
  positions : String → Option Position
  equity_history : List (Int × ℚ) := []

/-- `Portfolio.add_position` from app/core/portfolio.py.  Note that in the
`total_qty ≤ 0` branch Python returns before the cash update, so cash is
unchanged there. -/
def Portfolio.add_position (pf : Portfolio) (order : Order) :
    Except PyErr Portfolio :=
  if order.side ≠ "buy" then
    .error (.valueError "Can only add positions from buy orders")
  else
    match pf.positions order.symbol with
    | some existing =>
      let total_qty := existing.quantity + order.quantity
      if total_qty ≤ 0 then
        .ok { pf with positions := fun s =>
          if s = order.symbol then none else pf.positions s }
      else
        let new_avg := (existing.avg_price * existing.quantity
          + order.price * order.quantity) / total_qty
        .ok { pf with
          positions := fun s =>
            if s = order.symbol then
              some { existing with quantity := total_qty, avg_price := new_avg }
            else pf.positions s,
          cash := pf.cash - order.quantity * order.price }
    | none =>
      .ok { pf with
        positions := fun s =>
          if s = order.symbol then
            some ⟨order.symbol, order.quantity, order.price, none, none⟩
          else pf.positions s,
        cash := pf.cash - order.quantity * order.price }

/-- `Portfolio.remove_position` from app/core/portfolio.py: sell at most the
held quantity, credit the proceeds, delete the position when its remaining
quantity is ≤ 0. -/
def Portfolio.remove_position (pf : Portfolio) (order : Order) :
    Except PyErr Portfolio :=
  if order.side ≠ "sell" then
    .error (.valueError "Can only remove positions from sell orders")
  else
    match pf.positions order.symbol with
    | none => .ok pf
    | some existing =>
      let sell_qty := min order.quantity existing.quantity
      let remaining := existing.quantity - sell_qty
      let cash2 := pf.cash + sell_qty * order.price
      if remaining ≤ 0 then
        .ok { pf with cash := cash2, positions := fun s =>
          if s = order.symbol then none else pf.positions s }
      else
        .ok { pf with cash := cash2, positions := fun s =>
          if s = order.symbol then some { existing with quantity := remaining }
          else pf.positions s }

/-- One order applied the way the backtest engine does: buy orders go to
`add_position`, all other orders to `remove_position` (the engine only ever
constructs the sides "buy" and "sell"). -/
def applyOrder (pf : Portfolio) (order : Order) : Except PyErr Portfolio :=
  if order.side = "buy" then pf.add_position order else pf.remove_position order

/-- A sequence of orders applied in list order. -/
def applyOrders (pf : Portfolio) (orders : List Order) :
    Except PyErr Portfolio :=
  orders.foldlM applyOrder pf

/-- Every open position of the portfolio has non-negative quantity. -/
def nonnegPositions (pf : Portfolio) : Prop :=
  ∀ s pos, pf.positions s = some pos → 0 ≤ pos.quantity

/-- A fresh portfolio with cash 100 and no positions. -/
def emptyPortfolio : Portfolio := ⟨100, fun _ => none, []⟩


/-! ### app/backtest/metrics.py

Python `**` (float power) is abstracted as a total parameter
`powf : ℚ → ℚ → ℚ`: every exponent used by `compute_metrics` is positive
(`1/years` with `years ≥ 1e-9`, and `0.5`), and float `**` raises only for a
zero base with a negative exponent, so the operation is total on all inputs
reached here and its values are irrational in general.  Timestamps are an
opaque type `T`; `strftime("%Y-%m")` is abstracted as `monthKey : T → String`.
-/

/-- `TradeRecord` dataclass from app/backtest/metrics.py. -/
structure TradeRecord (T : Type) where
  symbol : String
  entry_date : T
  exit_date : T
  entry_price : ℚ
  exit_price : ℚ
  quantity : ℚ
  pnl : ℚ
  return_pct : ℚ
  holding_period : Int

/-- `BacktestMetrics` dataclass from app/backtest/metrics.py.
`profit_factor = none` encodes the Python value `float("inf")` (no losing
trades). -/
structure BacktestMetrics (T : Type) where
  cagr : ℚ
  volatility : ℚ
  sharpe : ℚ
  sortino : ℚ
  max_drawdown : ℚ
  calmar : ℚ
  hit_rate : ℚ
  profit_factor : Option ℚ
  expectancy : ℚ
  avg_win : ℚ
  avg_loss : ℚ
  avg_hold_days : ℚ
  turnover : ℚ
  exposure : ℚ
  num_trades : Nat
  best_month : Option ℚ
  worst_month : Option ℚ
  monthly_returns : List (String × ℚ)
  equity_curve : List (T × ℚ)
  drawdown : List (T × ℚ)

namespace Metrics

/-- `_annual_factor` from app/backtest/metrics.py
(`ANNUALIZATION = {"1D": 252, "1H": 252 * 6.5}` with default 252). -/
def _annual_factor (frequency : String) : ℚ :=
  if frequency = "1D" then 252
  else if frequency = "1H" then 252 * (13/2)
  else 252

/-- Loop body of `_pct_changes`: simple percentage change between
consecutive values, 0 when the previous value is 0. -/
def pctAux : ℚ → List ℚ → List ℚ
  | _, [] => []
  | prev, curr :: rest =>
    (if prev = 0 then 0 else (curr - prev) / prev) :: pctAux curr rest

/-- `_pct_changes` from app/backtest/metrics.py. -/
def _pct_changes : List ℚ → List ℚ
  | [] => []
  | v :: rest => pctAux v rest

/-- `_mean` from app/backtest/metrics.py. -/
def _mean (values : List ℚ) : ℚ :=
  if values = [] then 0 else values.sum / values.length

/-- `_std` from app/backtest/metrics.py: sample standard deviation
(n − 1 denominator); `variance**0.5` goes through `powf`. -/
def _std (powf : ℚ → ℚ → ℚ) (values : List ℚ) : ℚ :=
  if values.length < 2 then 0
  else
    let mean := _mean values
    let variance := (values.map (fun x => (x - mean) ^ 2)).sum
      / ((values.length : ℚ) - 1)
    powf variance (1/2)

/-- The running-maximum loop over the equity values
(`equity_roll_max` in `compute_metrics`). -/
def rollingMax : ℚ → List ℚ → List ℚ
  | _, [] => []
  | m, v :: rest =>
    let m2 := max m v
    m2 :: rollingMax m2 rest

/-- `month_groups.setdefault(key, []).append(ret)`: append a return to its
month group, creating the group at the end on first sight. -/
def insertGroup : List (String × List ℚ) → String → ℚ → List (String × List ℚ)
  | [], k, r => [(k, [r])]
  | (k2, rs) :: rest, k, r =>
    if k2 = k then (k2, rs ++ [r]) :: rest
    else (k2, rs) :: insertGroup rest k r

/-- The month-grouping loop of `compute_metrics`: pair `timestamps[i]`
(`i ≥ 1`) with `returns[i-1]` and group by month key. -/
def buildGroups (pairs : List (String × ℚ)) : List (String × List ℚ) :=
  pairs.foldl (fun gs p => insertGroup gs p.1 p.2) []

/-- `compute_metrics` from app/backtest/metrics.py.  Raising paths: fewer
than two equity observations raise ValueError; the only unguarded division
is `values[-1] / values[0]` (through `pyDiv`) — every other division in the
source is behind an explicit truthiness guard and is written with total
division.  `values.head?.getD 0` and `values.getLast?.getD 0` are
`values[0]` and `values[-1]`; the defaults are unreachable under the length
guard. -/
def compute_metrics {T : Type} (powf : ℚ → ℚ → ℚ) (monthKey : T → String)
    (equity_curve : List (T × ℚ)) (trades : List (TradeRecord T))
    (frequency : String) : Except PyErr (BacktestMetrics T) :=
  if equity_curve.length < 2 then
    .error (.valueError "Equity curve must contain at least two observations")
  else
    let timestamps := equity_curve.map Prod.fst
    let values := equity_curve.map Prod.snd
    let returns := _pct_changes values
    let downside := returns.filter (fun r => r < 0)
    let ann_factor := _annual_factor frequency
    match pyDiv (values.getLast?.getD 0) (values.head?.getD 0) with
    | .error err => .error err
    | .ok ratio =>
      let total_return := ratio - 1
      let years := max ((values.length : ℚ) / ann_factor) (1/1000000000)
      let cagr := powf (1 + total_return) (1 / years) - 1
      let volatility := _std powf returns * powf ann_factor (1/2)
      let sharpe :=
        if volatility ≠ 0 then (_mean returns * ann_factor) / volatility else 0
      let downside_std :=
        if downside ≠ [] then _std powf downside * powf ann_factor (1/2) else 0
      let sortino :=
        if downside_std ≠ 0 then (_mean returns * ann_factor) / downside_std
        else 0
      let peaks := rollingMax (values.head?.getD 0) values
      let dds := (values.zip peaks).map
        (fun vp => if vp.2 ≠ 0 then vp.1 / vp.2 - 1 else 0)
      let drawdown := timestamps.zip dds
      let max_drawdown := dds.foldl min 0
      let calmar :=
        if max_drawdown ≠ 0 then (_mean returns * ann_factor) / |max_drawdown|
        else 0
      let pnl_array := trades.map (fun t => t.pnl)
      let wins := pnl_array.filter (fun p => p > 0)
      let losses := pnl_array.filter (fun p => p < 0)
      let hit_rate :=
        if trades.isEmpty then 0
        else (wins.length : ℚ) / (trades.length : ℚ)
      let profit_factor :=
        if losses ≠ [] then some (wins.sum / |losses.sum|) else none
      let expectancy := if pnl_array ≠ [] then _mean pnl_array else 0
      let avg_win := if wins ≠ [] then _mean wins else 0
      let avg_loss := if losses ≠ [] then _mean losses else 0
      let avg_hold_days :=
        if trades.isEmpty then 0
        else _mean (trades.map (fun t => (t.holding_period : ℚ)))
      let turnover := (trades.map (fun t => |t.quantity| * t.entry_price)).sum
      let exposure :=
        if trades.isEmpty = false ∧ values.head?.getD 0 ≠ 0 then
          turnover / values.head?.getD 0
        else 0
      let monthly_returns :=
        (buildGroups (((timestamps.drop 1).map monthKey).zip returns)).map
          (fun g => (g.1, (g.2.foldl (fun c r => c * (1 + r)) 1) - 1))
      let best_month := (monthly_returns.map Prod.snd).max?
      let worst_month := (monthly_returns.map Prod.snd).min?
      .ok {
        cagr := cagr, volatility := volatility, sharpe := sharpe,
        sortino := sortino, max_drawdown := max_drawdown, calmar := calmar,
        hit_rate := hit_rate, profit_factor := profit_factor,
        expectancy := expectancy, avg_win := avg_win, avg_loss := avg_loss,
        avg_hold_days := avg_hold_days, turnover := turnover,
        exposure := exposure, num_trades := trades.length,
        best_month := best_month, worst_month := worst_month,
        monthly_returns := monthly_returns, equity_curve := equity_curve,
        drawdown := drawdown }

end Metrics


/-! ### app/signals/indicators.py

Indicator series are 1:1 aligned with the bar list; entries are
`Option ℚ` with `none` for the float not-a-number sentinel.  NaN
propagates through arithmetic (`nanAdd`, `nanSMul`), matching float
semantics.  The six indicators named by the specification claims are
embedded (`_sma`, `_ema_indicator`, `_rsi`, `_atr`, `_roc`, `_adx`).
-/

/-- `PriceBar` from app/data/providers.py (timestamp opaque). -/
structure PriceBar where
  timestamp : Int
  «open» : ℚ
  high : ℚ
  low : ℚ
  close : ℚ
  volume : ℚ
  deriving DecidableEq, Repr

namespace Indicators

/-- Float addition with NaN propagation. -/
def nanAdd : Option ℚ → Option ℚ → Option ℚ
  | some a, some b => some (a + b)
  | _, _ => none

/-- Scaling by a real (non-NaN) coefficient, with NaN propagation. -/
def nanSMul (a : ℚ) : Option ℚ → Option ℚ :=
  Option.map (fun v => a * v)

/-- Loop of `_ema`: the accumulator `none` means "no value seen yet"
(Python `ema_value is None`); `some v` carries the running EMA, itself
possibly NaN.  The first value seeds the EMA (even a NaN one). -/
def emaGo (alpha : ℚ) : Option (Option ℚ) → List (Option ℚ) → List (Option ℚ)
  | _, [] => []
  | none, v :: rest => v :: emaGo alpha (some v) rest
  | some prev, v :: rest =>
    let e := nanAdd (nanSMul alpha v) (nanSMul (1 - alpha) prev)
    e :: emaGo alpha (some e) rest

/-- `_ema` from app/signals/indicators.py with `alpha = 2 / (window + 1)`,
seeded with the first observed value. -/
def _ema (values : List (Option ℚ)) (window : Nat) : List (Option ℚ) :=
  emaGo (2 / ((window : ℚ) + 1)) none values

/-- `_rolling_mean` from app/signals/indicators.py: NaN before the window
is full, otherwise the arithmetic mean of the trailing `window` values. -/
def _rolling_mean (values : List ℚ) (window : Nat) : List (Option ℚ) :=
  (List.range values.length).map (fun i =>
    if i + 1 < window then none
    else some (((values.drop (i + 1 - window)).take window).sum / window))

/-- The warm-up mask `[nan if i + 1 < window else v]` used by the EMA and
ATR indicators. -/
def maskWarmup (window : Nat) (l : List (Option ℚ)) : List (Option ℚ) :=
  l.enum.map (fun iv => if iv.1 + 1 < window then none else iv.2)

/-- `_sma` from app/signals/indicators.py. -/
def _sma (bars : List PriceBar) (window : Nat) : List (Option ℚ) :=
  _rolling_mean (bars.map (fun b => b.close)) window

/-- `_ema_indicator` from app/signals/indicators.py: EMA of closes with the
warm-up mask applied. -/
def _ema_indicator (bars : List PriceBar) (window : Nat) : List (Option ℚ) :=
  maskWarmup window (_ema ((bars.map (fun b => b.close)).map some) window)

/-- Consecutive close-to-close changes (`closes[i] - closes[i-1]`). -/
def diffAux : ℚ → List ℚ → List ℚ
  | _, [] => []
  | prev, c :: rest => (c - prev) :: diffAux c rest

/-- One RSI entry from the smoothed gain/loss at an index: RSI is 100 when
the average loss is exactly 0; NaN smoothed inputs yield NaN. -/
def rsiVal (ag al : Option ℚ) : Option ℚ :=
  match al with
  | some a =>
    if a = 0 then some 100
    else
      match ag with
      | some g => some (100 - 100 / (1 + g / a))
      | none => none
  | none => none

/-- `_rsi` from app/signals/indicators.py: Wilder-style RSI via EMAs of
gains and losses, NaN before the warm-up window. -/
def _rsi (bars : List PriceBar) (window : Nat) : List (Option ℚ) :=
  let closes := bars.map (fun b => b.close)
  let changes := match closes with
    | [] => []
    | c :: rest => diffAux c rest
  let gains := (0 : ℚ) :: changes.map (fun c => max c 0)
  let losses := (0 : ℚ) :: changes.map (fun c => max (-c) 0)
  let avg_gain := _ema (gains.map some) window
  let avg_loss := _ema (losses.map some) window
  ((avg_gain.zip avg_loss).enum).map (fun x =>
    if x.1 + 1 < window then none else rsiVal x.2.1 x.2.2)

/-- Loop of `_true_range`, threading the previous close. -/
def trAux : Option ℚ → List PriceBar → List ℚ
  | _, [] => []
  | prevClose, b :: rest =>
    (match prevClose with
      | none => b.high - b.low
      | some pc => max (b.high - b.low) (max |b.high - pc| |b.low - pc|))
      :: trAux (some b.close) rest

/-- `_true_range` from app/signals/indicators.py. -/
def _true_range (bars : List PriceBar) : List ℚ :=
  trAux none bars

/-- `_atr` from app/signals/indicators.py: EMA of the true range with the
warm-up mask applied. -/
def _atr (bars : List PriceBar) (window : Nat) : List (Option ℚ) :=
  maskWarmup window (_ema ((_true_range bars).map some) window)

/-- `_roc` from app/signals/indicators.py: percentage change versus the
close `window` bars back; NaN when there is no such bar or it is zero. -/
def _roc (bars : List PriceBar) (window : Nat) : List (Option ℚ) :=
  let closes := bars.map (fun b => b.close)
  (List.range closes.length).map (fun i =>
    if i < window then none
    else
      let prev := closes.getD (i - window) 0
      if prev ≠ 0 then some ((closes.getD i 0 - prev) / prev * 100) else none)

/-- The `plus_dm`/`minus_dm` loop of `_adx` over consecutive bar pairs
(entries for indices ≥ 1). -/
def dmAux : PriceBar → List PriceBar → List (ℚ × ℚ)
  | _, [] => []
  | prev, b :: rest =>
    let up := b.high - prev.high
    let down := prev.low - b.low
    ((if up > down then max up 0 else 0),
     (if down > up then max down 0 else 0)) :: dmAux b rest

/-- The per-index DI loop of `_adx`: NaN when the true range is 0 or the
DI sum is 0 (a NaN DI sum compares unequal to 0 in Python and then
propagates NaN, i.e. `none`). -/
def adxLoop : List ℚ → List (Option ℚ) → List (Option ℚ) → List (Option ℚ)
  | t :: ts, p :: ps, m :: ms =>
    (if t = 0 then none
     else
       match p, m with
       | some pv, some mv =>
         let plus_di := 100 * pv / t
         let minus_di := 100 * mv / t
         if plus_di + minus_di = 0 then none
         else some (|plus_di - minus_di| / (plus_di + minus_di) * 100)
       | _, _ => none) :: adxLoop ts ps ms
  | _, _, _ => []

/-- `_adx` from app/signals/indicators.py: directional movement smoothed by
`_ema`, the per-index DI computation, and a final `_ema` smoothing pass over
the resulting series (for an empty bar list every intermediate list is empty
and the result is `[]`). -/
def _adx (bars : List PriceBar) (window : Nat) : List (Option ℚ) :=
  match bars with
  | [] => []
  | b0 :: rest =>
    _ema (adxLoop (_true_range (b0 :: rest))
      (_ema (((0, 0) :: dmAux b0 rest).map (fun d => some d.1)) window)
      (_ema (((0, 0) :: dmAux b0 rest).map (fun d => some d.2)) window)) window

end Indicators

/-! ### app/signals/rules.py

Python values flowing through rule expressions are numbers (with NaN),
booleans and `None`; `PyVal` models them, with `PyFloat := Option ℚ` and
`none` for NaN, which propagates through arithmetic and makes every
ordered comparison false.  The expression AST mirrors the `ast` node kinds
`SafeEval` dispatches on, plus the unhandled kinds (attribute access,
subscripting, lambda) that fall through to `generic_visit`.  Float `**` is
abstracted as the parameter `powf` (its values are irrational in general);
keyword arguments to the allow-listed builtins are evaluated and then
rejected, which differs from CPython only for `max`/`min` with `key=` or
`default=` — never used by the claims.
-/

/-- Python float: `none` is NaN. -/
abbrev PyFloat := Option ℚ

inductive PyVal where
  | num (v : PyFloat)
  | bool (b : Bool)
  | pynone
  deriving DecidableEq, Repr

def pyTruthy : PyVal → Bool
  | .num (some q) => decide (q ≠ 0)
  | .num none => true
  | .bool b => b
  | .pynone => false

def toNum : PyVal → Except PyErr PyFloat
  | .num v => .ok v
  | .bool b => .ok (some (if b then 1 else 0))
  | .pynone => .error .typeError

inductive UOp where
  | unot | usub | uadd | uinvert
  deriving DecidableEq, Repr

inductive BOp where
  | add | sub | mult | div | pow | unsupported
  deriving DecidableEq, Repr

inductive CmpOp where
  | gt | gte | lt | lte | eq | ne | unsupported
  deriving DecidableEq, Repr

inductive PyExpr where
  | const (v : PyVal)
  | name (id : String)
  | boolOp (isAnd : Bool) (values : List PyExpr)
  | unaryOp (op : UOp) (operand : PyExpr)
  | binOp (op : BOp) (lhs rhs : PyExpr)
  | compare (lhs : PyExpr) (pairs : List (CmpOp × PyExpr))
  | call (func : PyExpr) (args : List PyExpr) (kwargs : List (String × PyExpr))
  | attribute (value : PyExpr) (attr : String)
  | subscript (value index : PyExpr)
  | lam (body : PyExpr)

def nanAdd2 : PyFloat → PyFloat → PyFloat
  | some a, some b => some (a + b)
  | _, _ => none

def nanSub : PyFloat → PyFloat → PyFloat
  | some a, some b => some (a - b)
  | _, _ => none

def nanMul : PyFloat → PyFloat → PyFloat
  | some a, some b => some (a * b)
  | _, _ => none

def pyFDiv : PyFloat → PyFloat → Except PyErr PyFloat
  | a, some q =>
    if q = 0 then .error .zeroDivision
    else match a with
      | some x => .ok (some (x / q))
      | none => .ok none
  | _, none => .ok none

/-- float comparison: any NaN operand compares false. -/
def fLt : PyFloat → PyFloat → Bool
  | some a, some b => decide (a < b)
  | _, _ => false

def fLe : PyFloat → PyFloat → Bool
  | some a, some b => decide (a ≤ b)
  | _, _ => false

def fEq : PyFloat → PyFloat → Bool
  | some a, some b => decide (a = b)
  | _, _ => false

def pyEq : PyVal → PyVal → Bool
  | .pynone, .pynone => true
  | .pynone, _ => false
  | _, .pynone => false
  | .num a, .num b => fEq a b
  | .num a, .bool b => fEq a (some (if b then 1 else 0))
  | .bool a, .num b => fEq (some (if a then 1 else 0)) b
  | .bool a, .bool b => a == b

def pyCmp (op : CmpOp) (a b : PyVal) : Except PyErr Bool :=
  match op with
  | .gt => do
    let x ← toNum a
    let y ← toNum b
    .ok (fLt y x)
  | .gte => do
    let x ← toNum a
    let y ← toNum b
    .ok (fLe y x)
  | .lt => do
    let x ← toNum a
    let y ← toNum b
    .ok (fLt x y)
  | .lte => do
    let x ← toNum a
    let y ← toNum b
    .ok (fLe x y)
  | .eq => .ok (pyEq a b)
  | .ne => .ok (! pyEq a b)
  | .unsupported => .error (.valueError "Unsupported comparison operator")

def pyMaxFold (best : PyVal) : List PyVal → Except PyErr PyVal
  | [] => .ok best
  | a :: rest => do
    let gt ← pyCmp .gt a best
    pyMaxFold (if gt then a else best) rest

def pyMinFold (best : PyVal) : List PyVal → Except PyErr PyVal
  | [] => .ok best
  | a :: rest => do
    let lt ← pyCmp .lt a best
    pyMinFold (if lt then a else best) rest

/-- Python 3 banker's rounding of a rational to an integer. -/
def bankersRound (q : ℚ) : Int :=
  let f := q.floor
  let r := q - f
  if r < 1/2 then f
  else if r > 1/2 then f + 1
  else if f % 2 = 0 then f else f + 1

def applyFunc (fname : String) (args : List PyVal) : Except PyErr PyVal :=
  if fname = "abs" then
    match args with
    | [a] => do
      let x ← toNum a
      .ok (.num (x.map (fun q => |q|)))
    | _ => .error .typeError
  else if fname = "round" then
    match args with
    | [a] => do
      let x ← toNum a
      match x with
      | some q => .ok (.num (some ((bankersRound q : Int) : ℚ)))
      | none => .error (.valueError "cannot convert float NaN to integer")
    | _ => .error .typeError
  else if fname = "max" then
    match args with
    | [] => .error .typeError
    | [_] => .error .typeError
    | a :: rest => pyMaxFold a rest
  else
    match args with
    | [] => .error .typeError
    | [_] => .error .typeError
    | a :: rest => pyMinFold a rest

mutual

/-- `SafeEval.visit` from app/signals/rules.py. -/
def evalExpr (powf : PyFloat → PyFloat → Except PyErr PyFloat)
    (ctx : String → Option PyVal) : PyExpr → Except PyErr PyVal
  | .const v => .ok v
  | .name id =>
    match ctx id with
    | some v => .ok v
    | none => .error (.nameError id)
  | .boolOp isAnd values => do
    let vs ← evalList powf ctx values
    .ok (.bool (if isAnd then vs.all pyTruthy else vs.any pyTruthy))
  | .unaryOp op operand => do
    let v ← evalExpr powf ctx operand
    match op with
    | .unot => .ok (.bool (! pyTruthy v))
    | .usub => do
      let x ← toNum v
      .ok (.num (x.map (fun q => -q)))
    | .uadd => do
      let x ← toNum v
      .ok (.num x)
    | .uinvert => .error (.valueError "Unsupported unary operator")
  | .binOp op lhs rhs => do
    let a ← evalExpr powf ctx lhs
    let b ← evalExpr powf ctx rhs
    let x ← toNum a
    let y ← toNum b
    match op with
    | .add => .ok (.num (nanAdd2 x y))
    | .sub => .ok (.num (nanSub x y))
    | .mult => .ok (.num (nanMul x y))
    | .div => do
      let r ← pyFDiv x y
      .ok (.num r)
    | .pow => do
      let r ← powf x y
      .ok (.num r)
    | .unsupported => .error (.valueError "Unsupported binary operator")
  | .compare lhs pairs => do
    let l ← evalExpr powf ctx lhs
    let r ← evalChain powf ctx l true pairs
    .ok (.bool r)
  | .call func args kwargs =>
    match func with
    | .name fname =>
      if fname = "max" ∨ fname = "min" ∨ fname = "abs" ∨ fname = "round" then do
        let vs ← evalList powf ctx args
        let _ ← evalKwargs powf ctx kwargs
        if kwargs.isEmpty then applyFunc fname vs
        else .error .typeError
      else .error (.valueError ("Function " ++ fname ++ " is not allowed in rules"))
    | _ => .error (.valueError "Only simple function calls are allowed")
  | .attribute value _ => do
    let _ ← evalExpr powf ctx value
    .ok .pynone
  | .subscript value index => do
    let _ ← evalExpr powf ctx value
    let _ ← evalExpr powf ctx index
    .ok .pynone
  | .lam body => do
    let _ ← evalExpr powf ctx body
    .ok .pynone

def evalList (powf : PyFloat → PyFloat → Except PyErr PyFloat)
    (ctx : String → Option PyVal) : List PyExpr → Except PyErr (List PyVal)
  | [] => .ok []
  | e :: rest => do
    let v ← evalExpr powf ctx e
    let vs ← evalList powf ctx rest
    .ok (v :: vs)

def evalChain (powf : PyFloat → PyFloat → Except PyErr PyFloat)
    (ctx : String → Option PyVal) (left : PyVal) (result : Bool) :
    List (CmpOp × PyExpr) → Except PyErr Bool
  | [] => .ok result
  | (op, cexp) :: rest => do
    let right ← evalExpr powf ctx cexp
    match op with
    | .unsupported => .error (.valueError "Unsupported comparison operator")
    | _ =>
      if result then do
        let b ← pyCmp op left right
        evalChain powf ctx right b rest
      else
        evalChain powf ctx right false rest

def evalKwargs (powf : PyFloat → PyFloat → Except PyErr PyFloat)
    (ctx : String → Option PyVal) :
    List (String × PyExpr) → Except PyErr (List (String × PyVal))
  | [] => .ok []
  | (k, e) :: rest => do
    let v ← evalExpr powf ctx e
    let vs ← evalKwargs powf ctx rest
    .ok ((k, v) :: vs)

end

/-- whitespace strip (Python str.strip()). -/
def stripChars (p : Char → Bool) (s : String) : String :=
  String.mk (((s.data.dropWhile p).reverse.dropWhile p).reverse)

def isSpaceChar (c : Char) : Bool :=
  c = ' ' ∨ c = '\t' ∨ c = '\n' ∨ c = '\r'

def pyStrip (s : String) : String := stripChars isSpaceChar s

def stripParenSpace (s : String) : String :=
  stripChars (fun c => c = '(' ∨ c = ')' ∨ c = ' ') s

/-- Python str.startswith, over the character list (String.startsWith does
not reduce in the kernel). -/
def strStartsWith (s pre : String) : Bool := pre.data.isPrefixOf s.data

def pyFloatFn : PyVal → Except PyErr PyFloat
  | .num v => .ok v
  | .bool b => .ok (some (if b then 1 else 0))
  | .pynone => .error .typeError

structure RuleOutcome where
  entry : Bool
  exit_reasons : List String
  trailing_stop : Option PyFloat
  deriving DecidableEq, Repr

structure RulesDict where
  entry : Option String
  exit : List String
  deriving DecidableEq, Repr

/-- `evaluate_expression` from app/signals/rules.py.  The string-to-AST
stage (`_preprocess_expression`, the textual `between` rewrite, followed by
`ast.parse`) is abstracted as the `parse` parameter; a parse failure is
Python SyntaxError.  The parsed `Expression` wrapper is evaluated via
`visit_Expression`, i.e. directly on its body. -/
def evaluate_expression (parse : String → Option PyExpr)
    (powf : PyFloat → PyFloat → Except PyErr PyFloat)
    (expression : String) (ctx : String → Option PyVal) :
    Except PyErr PyVal :=
  match parse expression with
  | some tree => evalExpr powf ctx tree
  | none => .error .syntaxError

/-- The context merge `\x7b**features, **latest\x7d` of `evaluate_rules`:
a Python dict merge in which later keys — the per-bar OHLCV values in
`latest` — overwrite earlier ones. -/
def pyMerge (features latest : String → Option PyVal) :
    String → Option PyVal :=
  fun k =>
    match latest k with
    | some v => some v
    | none => features k

/-- One iteration of the exit-rule loop of `evaluate_rules`
(app/signals/rules.py): strip the rule, treat a `trailing_stop` prefix as a
numeric directive (strip the prefix, then surrounding parentheses and
spaces, evaluate, convert with `float`), otherwise evaluate as a boolean
and append the stripped rule text when it fires. -/
def exitStep (ev : String → Except PyErr PyVal)
    (st : Option PyFloat × List String) (rule : String) :
    Except PyErr (Option PyFloat × List String) :=
  let r := pyStrip rule
  if strStartsWith r "trailing_stop" then do
    let v ← ev (stripParenSpace (r.drop 13))
    let f ← pyFloatFn v
    .ok (some f, st.2)
  else do
    let v ← ev r
    .ok (st.1, if pyTruthy v then st.2 ++ [r] else st.2)

/-- The exit-rule loop of `evaluate_rules`, in list order, starting with no
trailing stop and no exit reasons. -/
def evalExits (ev : String → Except PyErr PyVal) (rules : List String) :
    Except PyErr (Option PyFloat × List String) :=
  rules.foldlM (exitStep ev) (none, [])

/-- `evaluate_rules` from app/signals/rules.py: merge the context
(`latest` overwrites `features`), evaluate the entry rule (default
`"True"`), then process the exit rules. -/
def evaluate_rules (parse : String → Option PyExpr)
    (powf : PyFloat → PyFloat → Except PyErr PyFloat)
    (rules : RulesDict) (latest features : String → Option PyVal) :
    Except PyErr RuleOutcome := do
  let context := pyMerge features latest
  let entryv ← evaluate_expression parse powf (rules.entry.getD "True") context
  let st ← evalExits
    (fun s => evaluate_expression parse powf s context) rules.exit
  .ok ⟨pyTruthy entryv, st.2, st.1⟩

/-- Specification helper: a (stripped) exit rule fires when it evaluates
successfully to a truthy value. -/
def firesUnder (ev : String → Except PyErr PyVal) (r : String) : Bool :=
  match ev r with
  | .ok v => pyTruthy v
  | .error _ => false

/-- Specification helper: the value a (stripped) `trailing_stop` directive
contributes, `none` when its evaluation or float conversion fails. -/
def tsValue (ev : String → Except PyErr PyVal) (r : String) : Option PyFloat :=
  match (do
    let v ← ev (stripParenSpace (r.drop 13))
    pyFloatFn v : Except PyErr PyFloat) with
  | .ok f => some f
  | .error _ => none

/-- A concrete stand-in for float `**` used in closed evaluations (no rule
in them contains a power). -/
def powfZ : PyFloat → PyFloat → Except PyErr PyFloat := fun _ _ => .ok (some 0)

/-- A concrete parse table: the abstract syntax trees `ast.parse` produces
for the expression strings used in the closed theorems below. -/

def parseEx : String → Option PyExpr := fun s =>
  if s = "True" then some (.const (.bool true))
  else if s = "close > 7" then
    some (.compare (.name "close") [(.gt, .const (.num (some 7)))])
  else if s = "1 < 2" then
    some (.compare (.const (.num (some 1))) [(.lt, .const (.num (some 2)))])
  else if s = "close < sma" then
    some (.compare (.name "close") [(.lt, .name "sma")])
  else if s = "high - 2*atr" then
    some (.binOp .sub (.name "high")
      (.binOp .mult (.const (.num (some 2))) (.name "atr")))
  else if s = "price.real" then some (.attribute (.name "price") "real")
  else if s = "prices[0]" then
    some (.subscript (.name "prices") (.const (.num (some 0))))
  else if s = "lambda: 1" then some (.lam (.const (.num (some 1))))
  else none

def ctxLatest : String → Option PyVal := fun k =>
  if k = "close" then some (.num (some 10))
  else if k = "high" then some (.num (some 12))
  else none

def ctxFeatures : String → Option PyVal := fun k =>
  if k = "close" then some (.num (some 5))
  else if k = "sma" then some (.num (some 12))
  else if k = "atr" then some (.num (some 1))
  else none

def ctxFeatures2 : String → Option PyVal := fun k =>
  if k = "close" then some (.num (some 99))
  else if k = "sma" then some (.num (some 12))
  else if k = "atr" then some (.num (some 1))
  else none

def ctxPrices : String → Option PyVal := fun k =>
  if k = "price" then some (.num (some 4))
  else if k = "prices" then some (.num (some 4))
  else none

/-- Modelled from the spec sentence "feature keys must not collide with
OHLCV field names; if they do, feature values take precedence": a context
merge in which feature values win.  Used only to exhibit the divergence
from the code, which merges `\x7b**features, **latest\x7d` so that `latest`
wins. -/
def specMergeFeaturesWin (features latest : String → Option PyVal) :
    String → Option PyVal :=
  fun k =>
    match features k with
    | some v => some v
    | none => latest k

/-- Claim C5, counterexample: the claim asserts the vol-target size equals
`(equity × risk_per_trade) / (atr × atr_multiple)` for every equity whenever
`price > 0`, `atr > 0` and `atr × atr_multiple > 0`; with the negative equity
−100000 (price = 100, atr = 2, risk_per_trade = 1/100, atr_multiple = 2)
those conditions hold, the formula gives −250, but the code clamps at zero
and returns 0. -/
theorem position_size_vol_target_negative_equity :
    position_size_vol_target (-100000) 100 2 (1/100) 2 = 0 ∧
    ((-100000 : ℚ) * (1/100)) / (2 * 2) = -250 ∧ (0 : ℚ) ≠ -250 := by
  refine ⟨?_, by norm_num, by norm_num⟩
  norm_num [position_size_vol_target]

/-- Claim C5 (amended): whenever `price > 0`, `atr > 0`,
`atr × atr_multiple > 0` and `equity × risk_per_trade ≥ 0`,
`position_size_vol_target` returns exactly
`(equity × risk_per_trade) / (atr × atr_multiple)`; and it returns exactly 0
whenever `atr ≤ 0` or `price ≤ 0`. -/
theorem position_size_vol_target_spec
    (equity price atr risk_per_trade atr_multiple : ℚ) :
    (0 < price → 0 < atr → 0 < atr * atr_multiple →
      0 ≤ equity * risk_per_trade →
      position_size_vol_target equity price atr risk_per_trade atr_multiple
        = (equity * risk_per_trade) / (atr * atr_multiple)) ∧
    (atr ≤ 0 ∨ price ≤ 0 →
      position_size_vol_target equity price atr risk_per_trade atr_multiple
        = 0) := by
  constructor
  · intro hp ha hs hnn
    have h1 : ¬ (price ≤ 0 ∨ atr ≤ 0) := by
      push_neg
      exact ⟨hp, ha⟩
    have h2 : ¬ (atr * atr_multiple ≤ 0) := not_le.mpr hs
    simp only [position_size_vol_target, h1, if_false, h2]
    exact max_eq_left (div_nonneg hnn hs.le)
  · intro h
    have h1 : price ≤ 0 ∨ atr ≤ 0 := h.symm
    simp [position_size_vol_target, h1]

/-- Witness for C5: the spec example equity=100000, price=100, atr=2,
risk_per_trade=0.01, atr_multiple=2 yields exactly 250, and a non-positive
price yields 0. -/
theorem position_size_vol_target_spec_witness :
    position_size_vol_target 100000 100 2 (1/100) 2 = 250 ∧
    position_size_vol_target 100000 (-1) 2 (1/100) 2 = 0 := by
  constructor
  · have h := (position_size_vol_target_spec 100000 100 2 (1/100) 2).1
      (by norm_num) (by norm_num) (by norm_num) (by norm_num)
    rw [h]; norm_num
  · exact (position_size_vol_target_spec 100000 (-1) 2 (1/100) 2).2
      (Or.inr (by norm_num))

/-- Claim C4, counterexample: the claim quantifies over every desired
quantity.  With desired_qty = −1000, price = 100, equity = 1000,
max_position_pct = 1/2, max_gross_exposure = 1, no positions and zero prior
gross exposure, the negative desired notional skips the per-position cap,
the gross-exposure branch then rewrites the quantity to 10, and the returned
notional 10 × 100 = 1000 exceeds max_position_pct × equity = 500. -/
theorem apply_position_limits_notional_breach :
    apply_position_limits (-1000) 100 1000 ⟨0, 1, 1/2⟩ 0 0 = .ok 10 ∧
    (10 : ℚ) * 100 > (1/2 : ℚ) * 1000 := by
  constructor
  · norm_num [apply_position_limits, applyCaps, pyDiv, abs]
  · norm_num

/-- Claim C4 (amended): for every non-negative desired quantity, positive
price, positive equity, non-negative max_position_pct and prior gross
exposure not already above max_gross_exposure, `apply_position_limits`
returns (without raising) a quantity `r ≥ 0` with notional
`r × price ≤ max_position_pct × equity` and post-trade gross exposure
`gross + |r × price| / equity ≤ max_gross_exposure`. -/
theorem apply_position_limits_caps
    (q p e g : ℚ) (params : RiskParameters) (c : Int)
    (hq : 0 ≤ q) (hp : 0 < p) (he : 0 < e)
    (hpct : 0 ≤ params.max_position_pct)
    (hg : g ≤ params.max_gross_exposure) :
    ∃ r, apply_position_limits q p e params c g = .ok r ∧
      0 ≤ r ∧ r * p ≤ params.max_position_pct * e ∧
      g + |r * p| / e ≤ params.max_gross_exposure := by
  have hep : ¬ e ≤ 0 := not_le.mpr he
  have hpne : p ≠ 0 := ne_of_gt hp
  have hene : e ≠ 0 := ne_of_gt he
  have hmg0 : 0 ≤ params.max_gross_exposure - g := sub_nonneg.mpr hg
  unfold apply_position_limits
  by_cases hc : params.max_positions ≠ 0 ∧ c ≥ params.max_positions
  · rw [if_pos hc]
    exact ⟨0, rfl, le_refl 0, by simpa using mul_nonneg hpct he.le,
      by simpa using hg⟩
  · rw [if_neg hc]
    by_cases h1 : q * p > e * params.max_position_pct
    · by_cases h2 : g + |e * params.max_position_pct / p * p| / e
          > params.max_gross_exposure
      · -- notional cap, then gross-exposure cap
        have heq : applyCaps q p e params g
            = .ok (max (max (params.max_gross_exposure - g) 0 * e / p) 0) := by
          simp only [applyCaps, pyDiv, if_neg hep, if_neg hpne, if_pos h1,
            if_pos h2]
        have hrw : max (params.max_gross_exposure - g) 0
            = params.max_gross_exposure - g := max_eq_left hmg0
        have hr0 : 0 ≤ (params.max_gross_exposure - g) * e / p :=
          div_nonneg (mul_nonneg hmg0 he.le) hp.le
        have hrp : (params.max_gross_exposure - g) * e / p * p
            = (params.max_gross_exposure - g) * e := div_mul_cancel₀ _ hpne
        refine ⟨_, heq, le_max_right _ 0, ?_, ?_⟩
        · rw [hrw, max_eq_left hr0, hrp]
          -- from h2: pct exceeds mg − g
          rw [div_mul_cancel₀ _ hpne,
            abs_of_nonneg (mul_nonneg he.le hpct),
            mul_div_cancel_left₀ _ hene] at h2
          have hlt : params.max_gross_exposure - g < params.max_position_pct := by
            linarith
          exact mul_le_mul_of_nonneg_right hlt.le he.le
        · rw [hrw, max_eq_left hr0, hrp,
            abs_of_nonneg (mul_nonneg hmg0 he.le),
            mul_div_assoc, div_self hene, mul_one]
          linarith
      · -- notional cap only
        have heq : applyCaps q p e params g
            = .ok (max (e * params.max_position_pct / p) 0) := by
          simp only [applyCaps, pyDiv, if_neg hep, if_neg hpne, if_pos h1,
            if_neg h2]
        have hq1 : 0 ≤ e * params.max_position_pct / p :=
          div_nonneg (mul_nonneg he.le hpct) hp.le
        refine ⟨_, heq, le_max_right _ 0, ?_, ?_⟩
        · rw [max_eq_left hq1, div_mul_cancel₀ _ hpne, mul_comm]
        · rw [max_eq_left hq1]
          exact not_lt.mp h2
    · by_cases h2 : g + |q * p| / e > params.max_gross_exposure
      · -- gross-exposure cap only
        have heq : applyCaps q p e params g
            = .ok (max (max (params.max_gross_exposure - g) 0 * e / p) 0) := by
          simp only [applyCaps, pyDiv, if_neg hep, if_neg hpne, if_neg h1,
            if_pos h2]
        have hrw : max (params.max_gross_exposure - g) 0
            = params.max_gross_exposure - g := max_eq_left hmg0
        have hr0 : 0 ≤ (params.max_gross_exposure - g) * e / p :=
          div_nonneg (mul_nonneg hmg0 he.le) hp.le
        have hrp : (params.max_gross_exposure - g) * e / p * p
            = (params.max_gross_exposure - g) * e := div_mul_cancel₀ _ hpne
        refine ⟨_, heq, le_max_right _ 0, ?_, ?_⟩
        · rw [hrw, max_eq_left hr0, hrp]
          rw [abs_of_nonneg (mul_nonneg hq hp.le)] at h2
          have hlt : params.max_gross_exposure - g < q * p / e := by
            linarith
          rw [lt_div_iff₀ he] at hlt
          have hle : q * p ≤ e * params.max_position_pct := not_lt.mp h1
          have : (params.max_gross_exposure - g) * e
              ≤ params.max_position_pct * e := by
            calc (params.max_gross_exposure - g) * e
                ≤ q * p := hlt.le
              _ ≤ e * params.max_position_pct := hle
              _ = params.max_position_pct * e := mul_comm _ _
          exact this
        · rw [hrw, max_eq_left hr0, hrp,
            abs_of_nonneg (mul_nonneg hmg0 he.le),
            mul_div_assoc, div_self hene, mul_one]
          linarith
      · -- no cap binds
        have heq : applyCaps q p e params g = .ok (max q 0) := by
          simp only [applyCaps, pyDiv, if_neg hep, if_neg hpne, if_neg h1,
            if_neg h2]
        refine ⟨_, heq, le_max_right _ 0, ?_, ?_⟩
        · rw [max_eq_left hq]
          calc q * p ≤ e * params.max_position_pct := not_lt.mp h1
            _ = params.max_position_pct * e := mul_comm _ _
        · rw [max_eq_left hq]
          exact not_lt.mp h2

/-- Witness for C4 (amended), at the repository's own test input:
desired 1000 shares at price 100 with equity 100000, limits
(5 positions, gross 1.0, 20 percent per position), 2 open positions and
prior gross exposure 0.4. -/
theorem apply_position_limits_caps_witness :
    ∃ r, apply_position_limits 1000 100 100000 ⟨5, 1, 1/5⟩ 2 (2/5) = .ok r ∧
      0 ≤ r ∧ r * 100 ≤ (1/5 : ℚ) * 100000 ∧
      (2/5 : ℚ) + |r * 100| / 100000 ≤ 1 :=
  apply_position_limits_caps 1000 100 100000 (2/5) ⟨5, 1, 1/5⟩ 2
    (by norm_num) (by norm_num) (by norm_num) (by norm_num) (by norm_num)

/-- Claim C10: when `max_positions` is exactly 0 the Python truthiness guard
`if params.max_positions and ...` is skipped for every open-position count,
and sizing proceeds directly to the notional and gross-exposure caps. -/
theorem apply_position_limits_zero_max_positions
    (q p e g : ℚ) (c : Int) (mg mp : ℚ) :
    apply_position_limits q p e ⟨0, mg, mp⟩ c g
      = applyCaps q p e ⟨0, mg, mp⟩ g := by
  simp [apply_position_limits]

/-- Helper: `add_position` with a non-negative buy quantity preserves
non-negative position quantities. -/
theorem add_position_preserves_nonneg (pf pf2 : Portfolio) (o : Order)
    (hq : 0 ≤ o.quantity) (hpf : nonnegPositions pf)
    (h : pf.add_position o = .ok pf2) : nonnegPositions pf2 := by
  unfold Portfolio.add_position at h
  by_cases hside : o.side ≠ "buy"
  · rw [if_pos hside] at h
    cases h
  · rw [if_neg hside] at h
    cases hx : pf.positions o.symbol with
    | some existing =>
      rw [hx] at h
      dsimp only at h
      by_cases htot : existing.quantity + o.quantity ≤ 0
      · rw [if_pos htot] at h
        injection h with h2
        subst h2
        intro s pos hs
        simp only at hs
        by_cases hsym : s = o.symbol
        · rw [if_pos hsym] at hs
          cases hs
        · rw [if_neg hsym] at hs
          exact hpf s pos hs
      · rw [if_neg htot] at h
        injection h with h2
        subst h2
        intro s pos hs
        simp only at hs
        by_cases hsym : s = o.symbol
        · rw [if_pos hsym] at hs
          injection hs with hs2
          subst hs2
          simpa using (not_le.mp htot).le
        · rw [if_neg hsym] at hs
          exact hpf s pos hs
    | none =>
      rw [hx] at h
      dsimp only at h
      injection h with h2
      subst h2
      intro s pos hs
      simp only at hs
      by_cases hsym : s = o.symbol
      · rw [if_pos hsym] at hs
        injection hs with hs2
        subst hs2
        simpa using hq
      · rw [if_neg hsym] at hs
        exact hpf s pos hs

/-- Helper: `remove_position` preserves non-negative position quantities for
every order: the sold quantity is capped at the held quantity. -/
theorem remove_position_preserves_nonneg (pf pf2 : Portfolio) (o : Order)
    (hpf : nonnegPositions pf)
    (h : pf.remove_position o = .ok pf2) : nonnegPositions pf2 := by
  unfold Portfolio.remove_position at h
  by_cases hside : o.side ≠ "sell"
  · rw [if_pos hside] at h
    cases h
  · rw [if_neg hside] at h
    cases hx : pf.positions o.symbol with
    | none =>
      rw [hx] at h
      dsimp only at h
      injection h with h2
      subst h2
      exact hpf
    | some existing =>
      rw [hx] at h
      dsimp only at h
      by_cases hrem : existing.quantity - min o.quantity existing.quantity ≤ 0
      · rw [if_pos hrem] at h
        injection h with h2
        subst h2
        intro s pos hs
        simp only at hs
        by_cases hsym : s = o.symbol
        · rw [if_pos hsym] at hs
          cases hs
        · rw [if_neg hsym] at hs
          exact hpf s pos hs
      · rw [if_neg hrem] at h
        injection h with h2
        subst h2
        intro s pos hs
        simp only at hs
        by_cases hsym : s = o.symbol
        · rw [if_pos hsym] at hs
          injection hs with hs2
          subst hs2
          simpa using (not_le.mp hrem).le
        · rw [if_neg hsym] at hs
          exact hpf s pos hs

/-- Helper: one engine-dispatched order preserves non-negative quantities
when, if it is a buy, its quantity is non-negative. -/
theorem applyOrder_preserves_nonneg (pf pf2 : Portfolio) (o : Order)
    (hbuy : o.side = "buy" → 0 ≤ o.quantity) (hpf : nonnegPositions pf)
    (h : applyOrder pf o = .ok pf2) : nonnegPositions pf2 := by
  unfold applyOrder at h
  by_cases hside : o.side = "buy"
  · rw [if_pos hside] at h
    exact add_position_preserves_nonneg pf pf2 o (hbuy hside) hpf h
  · rw [if_neg hside] at h
    exact remove_position_preserves_nonneg pf pf2 o hpf h

/-- Claim C7, counterexample: the claim ranges over every sequence of buy
and sell orders.  Applying the single buy order of quantity −5 at price 1
to a fresh portfolio creates (without error) an open position whose quantity
is −5 < 0: `add_position` only guards `total_qty ≤ 0` for an existing
position, not when creating one. -/
theorem portfolio_negative_buy_negative_position :
    (applyOrders emptyPortfolio [⟨"A", -5, 1, "buy", ""⟩]).map
        (fun pf => pf.positions "A")
      = .ok (some ⟨"A", -5, 1, none, none⟩) ∧
    (-5 : ℚ) < 0 := by
  constructor
  · simp [applyOrders, applyOrder, Portfolio.add_position, emptyPortfolio,
      List.foldlM, Except.map]
  · norm_num

/-- Claim C7 (amended): after any sequence of buy and sell orders in which
every buy order has a non-negative quantity, starting from a portfolio whose
open positions all have non-negative quantity, every open position still has
non-negative quantity (a sell of more than the held quantity closes at zero,
never below).  At most one position per symbol holds by the keyed-map
representation of the Python dict. -/
theorem applyOrders_nonneg (orders : List Order) (pf pf2 : Portfolio)
    (hbuy : ∀ o ∈ orders, o.side = "buy" → 0 ≤ o.quantity)
    (hpf : nonnegPositions pf)
    (happ : applyOrders pf orders = .ok pf2) : nonnegPositions pf2 := by
  induction orders generalizing pf with
  | nil =>
    simp only [applyOrders, List.foldlM] at happ
    injection happ with h2
    subst h2
    exact hpf
  | cons o rest ih =>
    rw [show applyOrders pf (o :: rest)
        = applyOrder pf o >>= fun pf1 => applyOrders pf1 rest from rfl] at happ
    cases hstep : applyOrder pf o with
    | error err =>
      rw [hstep] at happ
      cases happ
    | ok pf1 =>
      rw [hstep] at happ
      exact ih pf1 (fun x hx hb => hbuy x (List.mem_cons_of_mem o hx) hb)
        (applyOrder_preserves_nonneg pf pf1 o (hbuy o (List.mem_cons_self o rest)) hpf hstep)
        happ

/-- Witness for C7 (amended): one buy of 5 shares at price 10 on a fresh
portfolio leaves a portfolio whose open positions all have non-negative
quantity. -/
theorem applyOrders_nonneg_witness :
    nonnegPositions
      ⟨50, fun s => if s = "A" then some ⟨"A", 5, 10, none, none⟩ else none,
        []⟩ := by
  apply applyOrders_nonneg [⟨"A", 5, 10, "buy", ""⟩] emptyPortfolio
  · intro o ho hb
    simp only [List.mem_singleton] at ho
    subst ho
    norm_num
  · intro s pos hs
    simp [emptyPortfolio] at hs
  · simp only [applyOrders, List.foldlM, applyOrder, Portfolio.add_position,
      emptyPortfolio]
    norm_num

/-- Helper: `update_stop` keeps the stop set and never lowers it. -/
theorem update_stop_step (p : Position) (n s : ℚ)
    (hs : p.stop_price = some s) :
    ∃ u, (p.update_stop n).stop_price = some u ∧ s ≤ u := by
  unfold Position.update_stop
  rw [hs]
  dsimp only
  by_cases hgt : n > s
  · rw [if_pos hgt]
    exact ⟨n, rfl, hgt.le⟩
  · rw [if_neg hgt]
    exact ⟨s, hs, le_refl s⟩

/-- Helper: the stop is non-decreasing through any sequence of
`update_stop` calls. -/
theorem foldl_update_stop_mono (ns : List ℚ) (p : Position) (s t : ℚ)
    (hs : p.stop_price = some s)
    (ht : (ns.foldl Position.update_stop p).stop_price = some t) : s ≤ t := by
  induction ns generalizing p s with
  | nil =>
    simp only [List.foldl] at ht
    rw [hs] at ht
    injection ht with h2
    exact h2.le
  | cons n rest ih =>
    obtain ⟨u, hu, hsu⟩ := update_stop_step p n s hs
    have := ih (p.update_stop n) u hu (by simpa [List.foldl] using ht)
    linarith

/-- Claim C8: `Position.update_stop` sets the stop to the new value exactly
when the stop was unset or the new value is strictly higher, returns the
position unchanged otherwise, and never lowers a set stop — including over
any sequence of updates.  The engine's only other write to a stop is the
direct initial assignment right after opening a position
(app/backtest/engine.py), performed while the stop is unset, where it
coincides with `update_stop` (fourth conjunct). -/
theorem update_stop_monotone (p : Position) (n : ℚ) :
    ((p.stop_price = none ∨ ∃ s, p.stop_price = some s ∧ n > s) →
      (p.update_stop n).stop_price = some n) ∧
    (∀ s, p.stop_price = some s → ¬ n > s → p.update_stop n = p) ∧
    (∀ s t, p.stop_price = some s → (p.update_stop n).stop_price = some t →
      s ≤ t) ∧
    (p.stop_price = none → setStopDirect p n = p.update_stop n) ∧
    (∀ (ns : List ℚ) (s t : ℚ), p.stop_price = some s →
      (ns.foldl Position.update_stop p).stop_price = some t → s ≤ t) := by
  refine ⟨?_, ?_, ?_, ?_, ?_⟩
  · rintro (hnone | ⟨s, hs, hgt⟩)
    · unfold Position.update_stop
      rw [hnone]
    · unfold Position.update_stop
      rw [hs]
      dsimp only
      rw [if_pos hgt]
  · intro s hs hng
    unfold Position.update_stop
    rw [hs]
    dsimp only
    rw [if_neg hng]
  · intro s t hs ht
    obtain ⟨u, hu, hsu⟩ := update_stop_step p n s hs
    rw [hu] at ht
    injection ht with h2
    exact h2 ▸ hsu
  · intro hnone
    unfold setStopDirect Position.update_stop
    rw [hnone]
  · exact fun ns s t hs ht => foldl_update_stop_mono ns p s t hs ht

/-- Witness for C8: a stop of 5 is raised to 7 but not lowered to 3. -/
theorem update_stop_monotone_witness :
    (Position.update_stop ⟨"A", 1, 10, some 5, none⟩ 7).stop_price = some 7 ∧
    Position.update_stop ⟨"A", 1, 10, some 5, none⟩ 3
      = ⟨"A", 1, 10, some 5, none⟩ := by
  constructor
  · exact (update_stop_monotone ⟨"A", 1, 10, some 5, none⟩ 7).1
      (Or.inr ⟨5, rfl, by norm_num⟩)
  · exact (update_stop_monotone ⟨"A", 1, 10, some 5, none⟩ 3).2.1 5 rfl
      (by norm_num)


/-- Claim C9, counterexample: the claim asserts `compute_metrics` returns a
metrics record without raising for every equity curve with at least two
observations.  The curve [(0, 0), (1, 100)] has two observations, yet the
unguarded `values[-1] / values[0]` raises ZeroDivisionError because the
first equity value is 0. -/
theorem compute_metrics_zero_start_raises :
    Metrics.compute_metrics (fun _ _ => 0) (fun _ : Int => "2024-01")
        [((0 : Int), (0 : ℚ)), (1, 100)] [] "1D" = .error .zeroDivision ∧
    ([((0 : Int), (0 : ℚ)), (1, 100)].length) = 2 := by
  constructor
  · simp [Metrics.compute_metrics, pyDiv]
  · rfl

/-- Claim C9 (amended): `compute_metrics` fails with the insufficient-data
ValueError exactly when the equity curve has fewer than two observations;
with at least two observations it returns a metrics record without raising
provided the first equity value is nonzero, and raises ZeroDivisionError
(computing `values[-1] / values[0]`) when the first equity value is zero. -/
theorem compute_metrics_error_spec (T : Type) (powf : ℚ → ℚ → ℚ)
    (monthKey : T → String) (curve : List (T × ℚ))
    (trades : List (TradeRecord T)) (freq : String) :
    (curve.length < 2 →
      Metrics.compute_metrics powf monthKey curve trades freq
        = .error
            (.valueError "Equity curve must contain at least two observations")) ∧
    (2 ≤ curve.length → (curve.map Prod.snd).head?.getD 0 = 0 →
      Metrics.compute_metrics powf monthKey curve trades freq
        = .error .zeroDivision) ∧
    (2 ≤ curve.length → (curve.map Prod.snd).head?.getD 0 ≠ 0 →
      ∃ m, Metrics.compute_metrics powf monthKey curve trades freq
        = .ok m) := by
  refine ⟨?_, ?_, ?_⟩
  · intro hlen
    unfold Metrics.compute_metrics
    rw [if_pos hlen]
  · intro hlen hz
    unfold Metrics.compute_metrics
    rw [if_neg (not_lt.mpr hlen)]
    simp only [pyDiv, hz, if_pos]
  · intro hlen hz
    unfold Metrics.compute_metrics
    rw [if_neg (not_lt.mpr hlen)]
    simp only [pyDiv, if_neg hz]
    exact ⟨_, rfl⟩

/-- Witness for C9 (amended): the spec example, a two-point curve
[(t0, 50000), (t1, 55000)] at daily frequency, yields a metrics record, and
a one-point curve fails with the insufficient-data error. -/
theorem compute_metrics_error_spec_witness :
    (∃ m, Metrics.compute_metrics (fun _ _ => 0) (fun _ : Int => "2024-01")
        [((0 : Int), (50000 : ℚ)), (1, 55000)] [] "1D" = .ok m) ∧
    Metrics.compute_metrics (fun _ _ => 0) (fun _ : Int => "2024-01")
        [((0 : Int), (50000 : ℚ))] [] "1D"
      = .error
          (.valueError "Equity curve must contain at least two observations") := by
  constructor
  · exact (compute_metrics_error_spec Int (fun _ _ => 0)
      (fun _ => "2024-01") [((0 : Int), (50000 : ℚ)), (1, 55000)] [] "1D").2.2
      (by norm_num) (by norm_num)
  · exact (compute_metrics_error_spec Int (fun _ _ => 0)
      (fun _ => "2024-01") [((0 : Int), (50000 : ℚ))] [] "1D").1
      (by norm_num)


/-- Helper: `emaGo` preserves length. -/
theorem emaGo_length (alpha : ℚ) (prev : Option (Option ℚ))
    (l : List (Option ℚ)) :
    (Indicators.emaGo alpha prev l).length = l.length := by
  induction l generalizing prev with
  | nil => cases prev <;> rfl
  | cons v rest ih => cases prev <;> simp [Indicators.emaGo, ih]

/-- Helper: once the running EMA is NaN it stays NaN forever. -/
theorem emaGo_some_none (alpha : ℚ) (l : List (Option ℚ)) :
    Indicators.emaGo alpha (some none) l = List.replicate l.length none := by
  induction l with
  | nil => rfl
  | cons v rest ih =>
    simp [Indicators.emaGo, Indicators.nanAdd, Indicators.nanSMul, ih,
      List.replicate]

/-- Helper: an EMA seeded with NaN is NaN at every index. -/
theorem ema_head_none (l : List (Option ℚ)) (window : Nat) :
    Indicators._ema (none :: l) window
      = List.replicate (l.length + 1) none := by
  simp [Indicators._ema, Indicators.emaGo, emaGo_some_none, List.replicate]

/-- Helper: `trAux` preserves length. -/
theorem trAux_length (pc : Option ℚ) (bars : List PriceBar) :
    (Indicators.trAux pc bars).length = bars.length := by
  induction bars generalizing pc with
  | nil => rfl
  | cons b rest ih => simp [Indicators.trAux, ih]

/-- Helper: `dmAux` yields one entry per bar pair. -/
theorem dmAux_length (b : PriceBar) (rest : List PriceBar) :
    (Indicators.dmAux b rest).length = rest.length := by
  induction rest generalizing b with
  | nil => rfl
  | cons c r ih => simp [Indicators.dmAux, ih]

/-- Helper: `adxLoop` zips its three inputs. -/
theorem adxLoop_length (ts : List ℚ) (ps ms : List (Option ℚ)) :
    (Indicators.adxLoop ts ps ms).length
      = min ts.length (min ps.length ms.length) := by
  induction ts generalizing ps ms with
  | nil => simp [Indicators.adxLoop]
  | cons t ts ih =>
    cases ps with
    | nil => simp [Indicators.adxLoop]
    | cons p ps =>
      cases ms with
      | nil => simp [Indicators.adxLoop]
      | cons m ms =>
        simp [Indicators.adxLoop, ih]
        omega

/-- Claim C3: the claim (and spec §4.1/§8) says ADX is a defined float at
and after its warm-up window for any input series of length ≥ window.  In
the code, `adx_values[0]` is always NaN — both directional movements start
at 0, so the DI sum at index 0 is 0 (or the first true range is 0) — and
the final `_ema` smoothing pass seeds from that NaN and propagates it, so
`_adx` returns NaN at every index for every input series and window.  This
contradicts the documented intent (e.g. a strictly monotonic 6-bar series
with window 3 is NaN at all six indices). -/
theorem adx_always_nan (bars : List PriceBar) (window : Nat) :
    Indicators._adx bars window = List.replicate bars.length none := by
  cases bars with
  | nil => rfl
  | cons b0 rest =>
    show Indicators._ema (Indicators.adxLoop
        (Indicators._true_range (b0 :: rest))
        (Indicators._ema
          (((0, 0) :: Indicators.dmAux b0 rest).map (fun d => some d.1)) window)
        (Indicators._ema
          (((0, 0) :: Indicators.dmAux b0 rest).map (fun d => some d.2)) window))
        window
      = List.replicate (b0 :: rest).length none
    have htr : Indicators._true_range (b0 :: rest)
        = (b0.high - b0.low) :: Indicators.trAux (some b0.close) rest := rfl
    have hmap1 : (((0, 0) :: Indicators.dmAux b0 rest).map
          (fun d : ℚ × ℚ => some d.1))
        = some 0 :: (Indicators.dmAux b0 rest).map (fun d => some d.1) := rfl
    have hmap2 : (((0, 0) :: Indicators.dmAux b0 rest).map
          (fun d : ℚ × ℚ => some d.2))
        = some 0 :: (Indicators.dmAux b0 rest).map (fun d => some d.2) := rfl
    rw [htr, hmap1, hmap2]
    have hema1 : Indicators._ema
          (some 0 :: (Indicators.dmAux b0 rest).map (fun d => some d.1)) window
        = some 0 :: Indicators.emaGo (2 / ((window : ℚ) + 1)) (some (some 0))
            ((Indicators.dmAux b0 rest).map (fun d => some d.1)) := rfl
    have hema2 : Indicators._ema
          (some 0 :: (Indicators.dmAux b0 rest).map (fun d => some d.2)) window
        = some 0 :: Indicators.emaGo (2 / ((window : ℚ) + 1)) (some (some 0))
            ((Indicators.dmAux b0 rest).map (fun d => some d.2)) := rfl
    rw [hema1, hema2]
    have hhead : ∀ (t : ℚ) (l1 : List ℚ) (l2 l3 : List (Option ℚ)),
        Indicators.adxLoop (t :: l1) (some 0 :: l2) (some 0 :: l3)
          = none :: Indicators.adxLoop l1 l2 l3 := by
      intro t l1 l2 l3
      by_cases ht : t = 0
      · simp [Indicators.adxLoop, ht]
      · simp [Indicators.adxLoop, ht]
    rw [hhead]
    rw [ema_head_none]
    congr 1
    rw [adxLoop_length, trAux_length, emaGo_length, emaGo_length]
    simp [dmAux_length]

theorem except_bind_ok {α β : Type} (a : α) (f : α → Except PyErr β) :
    (Except.ok a >>= f) = f a := rfl

theorem except_bind_error {α β : Type} (e : PyErr) (f : α → Except PyErr β) :
    ((Except.error e : Except PyErr α) >>= f) = .error e := rfl

theorem except_pure {α : Type} (a : α) :
    (pure a : Except PyErr α) = .ok a := rfl

theorem exitFold_spec (ev : String → Except PyErr PyVal) (rs : List String)
    (ts0 : Option PyFloat) (acc : List String) (ts : Option PyFloat)
    (reasons : List String)
    (h : rs.foldlM (exitStep ev) (ts0, acc) = .ok (ts, reasons)) :
    reasons = acc ++ (rs.map pyStrip).filter
        (fun r => !strStartsWith r "trailing_stop" && firesUnder ev r) ∧
    ts = (match ((rs.map pyStrip).filter
        (fun r => strStartsWith r "trailing_stop")).getLast? with
      | Option.none => ts0
      | Option.some r => tsValue ev r) := by
  induction rs generalizing ts0 acc with
  | nil =>
    simp only [List.foldlM] at h
    injection h with h2
    injection h2 with ha hb
    subst ha
    subst hb
    simp
  | cons r rest ih =>
    rw [show List.foldlM (exitStep ev) (ts0, acc) (r :: rest)
        = exitStep ev (ts0, acc) r >>= fun st => List.foldlM (exitStep ev) st rest
      from rfl] at h
    rw [show exitStep ev (ts0, acc) r
        = (if strStartsWith (pyStrip r) "trailing_stop" then do
            let v ← ev (stripParenSpace ((pyStrip r).drop 13))
            let f ← pyFloatFn v
            .ok (some f, acc)
          else do
            let v ← ev (pyStrip r)
            .ok (ts0, if pyTruthy v then acc ++ [pyStrip r] else acc))
      from rfl] at h
    by_cases hts : strStartsWith (pyStrip r) "trailing_stop"
    · rw [if_pos hts] at h
      cases hv : ev (stripParenSpace ((pyStrip r).drop 13)) with
      | error e =>
        rw [hv] at h
        simp only [except_bind_error] at h
        cases h
      | ok v =>
        rw [hv] at h
        simp only [except_bind_ok] at h
        cases hf : pyFloatFn v with
        | error e =>
          rw [hf] at h
          simp only [except_bind_error] at h
          cases h
        | ok f =>
          rw [hf] at h
          simp only [except_bind_ok, except_bind_ok] at h
          obtain ⟨h1, h2⟩ := ih (some f) acc h
          refine ⟨?_, ?_⟩
          · rw [h1]
            simp [hts]
          · rw [h2]
            have hcons : (((r :: rest).map pyStrip).filter
                  (fun x => strStartsWith x "trailing_stop"))
                = pyStrip r :: ((rest.map pyStrip).filter
                  (fun x => strStartsWith x "trailing_stop")) := by
              simp [hts]
            rw [hcons]
            cases hfil : (rest.map pyStrip).filter
                (fun x => strStartsWith x "trailing_stop") with
            | nil =>
              simp only [List.getLast?_nil, List.getLast?_singleton]
              unfold tsValue
              rw [hv]
              simp only [except_bind_ok]
              rw [hf]
            | cons b l =>
              rw [List.getLast?_cons_cons]
              cases hlast : (b :: l).getLast? with
              | none =>
                rw [List.getLast?_eq_none_iff] at hlast
                cases hlast
              | some x => rfl
    · rw [if_neg hts] at h
      cases hv : ev (pyStrip r) with
      | error e =>
        rw [hv] at h
        simp only [except_bind_error] at h
        cases h
      | ok v =>
        rw [hv] at h
        simp only [except_bind_ok] at h
        obtain ⟨h1, h2⟩ := ih ts0
          (if pyTruthy v then acc ++ [pyStrip r] else acc) h
        have hfire : firesUnder ev (pyStrip r) = pyTruthy v := by
          unfold firesUnder
          rw [hv]
        refine ⟨?_, ?_⟩
        · rw [h1]
          simp only [List.map_cons, List.filter_cons, hts, hfire,
            Bool.not_false, Bool.true_and]
          by_cases htr : pyTruthy v = true
          · rw [htr]
            simp
          · rw [Bool.not_eq_true] at htr
            rw [htr]
            simp
        · rw [h2]
          simp only [List.map_cons, List.filter_cons, hts]
          simp

theorem evalExits_spec (ev : String → Except PyErr PyVal) (rs : List String)
    (ts : Option PyFloat) (reasons : List String)
    (h : evalExits ev rs = .ok (ts, reasons)) :
    reasons = (rs.map pyStrip).filter
        (fun r => !strStartsWith r "trailing_stop" && firesUnder ev r) ∧
    ts = (match ((rs.map pyStrip).filter
        (fun r => strStartsWith r "trailing_stop")).getLast? with
      | Option.none => Option.none
      | Option.some r => tsValue ev r) := by
  have := exitFold_spec ev rs Option.none [] ts reasons h
  simpa using this


/-- Claim C6 (amended): on any successful run of `evaluate_rules`, the exit
rules are processed in list order; a rule starting with `trailing_stop` has
the prefix and surrounding parentheses/whitespace stripped and its remainder
evaluated numerically with the last such directive winning
(`getLast?`), and every other rule that evaluates to true contributes its
whitespace-stripped text — not the original text — to the exit reasons,
all firing rules accumulating. -/
theorem evaluate_rules_exit_spec (parse : String → Option PyExpr)
    (powf : PyFloat → PyFloat → Except PyErr PyFloat)
    (rules : RulesDict) (latest features : String → Option PyVal)
    (out : RuleOutcome)
    (h : evaluate_rules parse powf rules latest features = .ok out) :
    out.exit_reasons = (rules.exit.map pyStrip).filter
        (fun r => !strStartsWith r "trailing_stop" && firesUnder
          (fun s => evaluate_expression parse powf s (pyMerge features latest))
          r) ∧
    out.trailing_stop = (match ((rules.exit.map pyStrip).filter
        (fun r => strStartsWith r "trailing_stop")).getLast? with
      | Option.none => Option.none
      | Option.some r => tsValue
          (fun s => evaluate_expression parse powf s (pyMerge features latest))
          r) := by
  unfold evaluate_rules at h
  dsimp only at h
  cases he : evaluate_expression parse powf (rules.entry.getD "True")
      (pyMerge features latest) with
  | error e =>
    rw [he] at h
    simp only [except_bind_error] at h
    cases h
  | ok v =>
    rw [he] at h
    simp only [except_bind_ok] at h
    cases hx : evalExits
        (fun s => evaluate_expression parse powf s (pyMerge features latest))
        rules.exit with
    | error e =>
      rw [hx] at h
      simp only [except_bind_error] at h
      cases h
    | ok st =>
      rw [hx] at h
      simp only [except_bind_ok] at h
      injection h with h2
      obtain ⟨h1, h2x⟩ := evalExits_spec
        (fun s => evaluate_expression parse powf s (pyMerge features latest))
        rules.exit st.1 st.2 (by rw [hx])
      rw [← h2]
      exact ⟨h1, h2x⟩

/-- Claim C1 (amended): in `evaluate_rules` the bar context (`latest`, the
OHLCV values) takes precedence over computed features on colliding keys:
the result is unchanged under any modification of the feature map on keys
present in `latest`. -/
theorem evaluate_rules_ohlcv_precedence (parse : String → Option PyExpr)
    (powf : PyFloat → PyFloat → Except PyErr PyFloat)
    (rules : RulesDict) (latest features1 features2 : String → Option PyVal)
    (hnc : ∀ k, latest k = Option.none → features1 k = features2 k) :
    evaluate_rules parse powf rules latest features1
      = evaluate_rules parse powf rules latest features2 := by
  have hm : pyMerge features1 latest = pyMerge features2 latest := by
    funext k
    unfold pyMerge
    cases hl : latest k with
    | some v => rfl
    | none => simp [hnc k hl]
  unfold evaluate_rules
  rw [hm]

/-- Witness for C1 (amended): changing the colliding feature value `close`
from 5 to 99 does not change the outcome, because the bar value wins. -/
theorem evaluate_rules_ohlcv_precedence_witness :
    evaluate_rules parseEx powfZ ⟨some "close > 7", []⟩ ctxLatest ctxFeatures
      = evaluate_rules parseEx powfZ ⟨some "close > 7", []⟩ ctxLatest
          ctxFeatures2 := by
  apply evaluate_rules_ohlcv_precedence
  intro k hk
  by_cases hc : k = "close"
  · subst hc
    simp [ctxLatest] at hk
  · simp [ctxFeatures, ctxFeatures2, hc]

/-- Claim C1, counterexample: with feature `close = 5` colliding with bar
`close = 10`, the entry rule `close > 7` evaluates to true — the bar value
10 is used — whereas under the spec-mandated feature-precedence merge the
same expression evaluates to false. -/
theorem evaluate_rules_latest_precedence_cx :
    evaluate_rules parseEx powfZ ⟨some "close > 7", []⟩ ctxLatest ctxFeatures
      = .ok ⟨true, [], Option.none⟩ ∧
    evaluate_expression parseEx powfZ "close > 7"
        (specMergeFeaturesWin ctxFeatures ctxLatest) = .ok (.bool false) := by
  have hp : parseEx "close > 7"
      = some (.compare (.name "close") [(.gt, .const (.num (some 7)))]) := rfl
  have hm : pyMerge ctxFeatures ctxLatest "close"
      = some (.num (some 10)) := rfl
  have hs : specMergeFeaturesWin ctxFeatures ctxLatest "close"
      = some (.num (some 5)) := rfl
  have hc1 : fLt (some (7 : ℚ)) (some 10) = true := by decide
  have hc2 : fLt (some (7 : ℚ)) (some 5) = false := by decide
  constructor
  · simp only [evaluate_rules, evaluate_expression, hp, evalExits,
      List.foldlM, except_bind_ok, except_pure, evalExpr, evalChain, hm,
      pyCmp, toNum, hc1, pyTruthy, Option.getD, if_true]
  · simp only [evaluate_expression, hp, evalExpr, evalChain, hs, pyCmp,
      toNum, hc2, except_bind_ok, except_pure, if_true]

/-- Claim C2: the claim (and spec §4.2) requires a "disallowed construct"
error for syntax outside the grammar.  Instead, `SafeEval.visit` falls back
to `ast.NodeVisitor.generic_visit`, which visits children and returns
`None`: attribute access, subscripting and lambda all evaluate silently to
`None`.  This demonstrates the code bug on the inputs `price.real`,
`prices[0]` and `lambda: 1`. -/
theorem evaluate_expression_silent_constructs :
    evaluate_expression parseEx powfZ "price.real" ctxPrices = .ok .pynone ∧
    evaluate_expression parseEx powfZ "prices[0]" ctxPrices = .ok .pynone ∧
    evaluate_expression parseEx powfZ "lambda: 1" ctxPrices = .ok .pynone := by
  have hp1 : parseEx "price.real"
      = some (.attribute (.name "price") "real") := rfl
  have hp2 : parseEx "prices[0]"
      = some (.subscript (.name "prices") (.const (.num (some 0)))) := rfl
  have hp3 : parseEx "lambda: 1" = some (.lam (.const (.num (some 1)))) := rfl
  have hc1 : ctxPrices "price" = some (.num (some 4)) := rfl
  have hc2 : ctxPrices "prices" = some (.num (some 4)) := rfl
  refine ⟨?_, ?_, ?_⟩
  · simp only [evaluate_expression, hp1, evalExpr, hc1, except_bind_ok]
  · simp only [evaluate_expression, hp2, evalExpr, hc2, except_bind_ok]
  · simp only [evaluate_expression, hp3, evalExpr, except_bind_ok]

/-- Claim C6, counterexample: the exit rule `" 1 < 2 "` (with surrounding
whitespace) fires, and the reason recorded is the stripped text
`"1 < 2"`, not the original rule text as the claim states. -/
theorem evaluate_rules_strips_reason_cx :
    evaluate_rules parseEx powfZ ⟨some "True", [" 1 < 2 "]⟩ ctxLatest
        ctxFeatures = .ok ⟨true, ["1 < 2"], Option.none⟩ ∧
    ("1 < 2" : String) ≠ " 1 < 2 " := by
  have hstrip : pyStrip " 1 < 2 " = "1 < 2" := by decide
  have hsw : strStartsWith "1 < 2" "trailing_stop" = false := by decide
  have hpT : parseEx "True" = some (.const (.bool true)) := rfl
  have hp : parseEx "1 < 2"
      = some (.compare (.const (.num (some 1)))
          [(.lt, .const (.num (some 2)))]) := rfl
  have hc : fLt (some (1 : ℚ)) (some 2) = true := by decide
  constructor
  · simp only [evaluate_rules, evaluate_expression, hpT, evalExits,
      List.foldlM, exitStep, hstrip, hsw, hp, evalExpr, evalChain, pyCmp,
      toNum, hc, pyTruthy, except_bind_ok, except_pure, Option.getD,
      Bool.false_eq_true, if_false, if_true, List.nil_append]
  · decide

/-- Witness for C6 (amended), at the spec example: exit rules
`["close < sma", "trailing_stop(high - 2*atr)"]` in a context where
`close < sma` holds give exit reasons `["close < sma"]` and the evaluated
trailing stop. -/
theorem evaluate_rules_exit_spec_witness :
    (⟨true, ["close < sma"], some (some 10)⟩ : RuleOutcome).exit_reasons
      = ((["close < sma", "trailing_stop(high - 2*atr)"].map pyStrip).filter
          (fun r => !strStartsWith r "trailing_stop" && firesUnder
            (fun s => evaluate_expression parseEx powfZ s
              (pyMerge ctxFeatures ctxLatest)) r)) ∧
    (⟨true, ["close < sma"], some (some 10)⟩ : RuleOutcome).trailing_stop
      = (match (((["close < sma", "trailing_stop(high - 2*atr)"]).map
            pyStrip).filter
          (fun r => strStartsWith r "trailing_stop")).getLast? with
        | Option.none => Option.none
        | Option.some r => tsValue
            (fun s => evaluate_expression parseEx powfZ s
              (pyMerge ctxFeatures ctxLatest)) r) := by
  apply evaluate_rules_exit_spec parseEx powfZ
    ⟨some "True", ["close < sma", "trailing_stop(high - 2*atr)"]⟩
    ctxLatest ctxFeatures
  have h1 : pyStrip "close < sma" = "close < sma" := by decide
  have h2 : pyStrip "trailing_stop(high - 2*atr)"
      = "trailing_stop(high - 2*atr)" := by decide
  have h3 : strStartsWith "close < sma" "trailing_stop" = false := by decide
  have h4 : strStartsWith "trailing_stop(high - 2*atr)" "trailing_stop"
      = true := by decide
  have h5 : (("trailing_stop(high - 2*atr)" : String).drop 13)
      = "(high - 2*atr)" := by decide
  have h6 : stripParenSpace "(high - 2*atr)" = "high - 2*atr" := by decide
  have hpT : parseEx "True" = some (.const (.bool true)) := rfl
  have hpC : parseEx "close < sma"
      = some (.compare (.name "close") [(.lt, .name "sma")]) := rfl
  have hpH : parseEx "high - 2*atr"
      = some (.binOp .sub (.name "high")
          (.binOp .mult (.const (.num (some 2))) (.name "atr"))) := rfl
  have hmc : pyMerge ctxFeatures ctxLatest "close"
      = some (.num (some 10)) := rfl
  have hms : pyMerge ctxFeatures ctxLatest "sma"
      = some (.num (some 12)) := rfl
  have hmh : pyMerge ctxFeatures ctxLatest "high"
      = some (.num (some 12)) := rfl
  have hma : pyMerge ctxFeatures ctxLatest "atr"
      = some (.num (some 1)) := rfl
  have hcmp : fLt (some (10 : ℚ)) (some 12) = true := by decide
  have hmul : nanMul (some (2 : ℚ)) (some 1) = some 2 := by
    norm_num [nanMul]
  have hsub : nanSub (some (12 : ℚ)) (some 2) = some 10 := by
    norm_num [nanSub]
  simp only [evaluate_rules, evaluate_expression, evalExits, List.foldlM,
    exitStep, h1, h2, h3, h4, h5, h6, hpT, hpC, hpH, hmc, hms, hmh, hma,
    evalExpr, evalChain, pyCmp, toNum, hcmp, hmul, hsub, pyTruthy,
    pyFloatFn, except_bind_ok, except_pure, Option.getD,
    Bool.false_eq_true, if_false, if_true, List.nil_append]

end Spec2Proof
